import Mathlib

/-!
Shallow embedding of the particle-based viscoelastic fluid simulator
(`src/sim_3.js`) and verification of its specification claims.

JS `Number` arithmetic is modelled by exact rationals (`ℚ`); `Math.sqrt`
is an opaque primitive of the source and is passed in as an explicit
function parameter `sq : ℚ → ℚ`; the 32-bit bitwise XOR used by the
spatial-hash function is modelled on `ℤ`/`ℕ` with explicit reduction
modulo 2^32.  Arrays are modelled as `List`s (particle store) and as
index functions `ℕ → ℤ` (bucket-head / next-index arrays), and the
`while (idx != -1)` linked-list walks of the source become fuel-bounded
recursion.
-/

/-- A particle (`class Particle`): position, previous position, velocity. -/
structure Particle where
  posX : ℚ
  posY : ℚ
  prevX : ℚ
  prevY : ℚ
  velX : ℚ
  velY : ℚ
  deriving DecidableEq

instance : Inhabited Particle := ⟨⟨0, 0, 0, 0, 0, 0⟩⟩

/-- Material parameters (`class Material`).  The constructor fixes
`pointSize = 5`, `gravX = 0`, `gravY = 0.5`, `dt = 1`, `maxPressure = 1`;
here all fields are explicit state so that claims about them can be stated. -/
structure Material where
  name : String
  restDensity : ℚ
  stiffness : ℚ
  nearStiffness : ℚ
  kernelRadius : ℚ
  pointSize : ℚ
  gravX : ℚ
  gravY : ℚ
  dt : ℚ
  maxPressure : ℚ
  deriving DecidableEq

/-- `new Material(name, restDensity, stiffness, nearStiffness, kernelRadius)`. -/
def Material.make (name : String) (restDensity stiffness nearStiffness kernelRadius : ℚ) :
    Material :=
  ⟨name, restDensity, stiffness, nearStiffness, kernelRadius, 5, 0, 0.5, 1, 1⟩

/-- Bitwise XOR of the low `fuel` bits of two naturals, by structural
recursion on the bit count (kernel-computable model of 32-bit XOR). -/
def xorBits : ℕ → ℕ → ℕ → ℕ
  | 0, _, _ => 0
  | fuel + 1, a, b =>
      (if a % 2 = b % 2 then 0 else 1) + 2 * xorBits fuel (a / 2) (b / 2)

/-- JS `ToInt32`: reduce an integer modulo 2^32 into the signed range
[-2^31, 2^31). -/
def toInt32 (z : ℤ) : ℤ :=
  let u := z % 4294967296
  if u < 2147483648 then u else u - 4294967296

/-- JS 32-bit `^` on numbers: both operands are coerced to 32-bit
two's-complement integers, XORed bitwise, and the result is read back
as a signed 32-bit integer. -/
def jsXor32 (a b : ℤ) : ℤ :=
  toInt32 (xorBits 32 (a % 4294967296).toNat (b % 4294967296).toNat)

/-- `Simulator.getHashBucketIdx(bucketX, bucketY)`:
`Math.abs((bucketX * 92837111) ^ (bucketY * 689287499)) % numHashBuckets`. -/
def getHashBucketIdx (numHashBuckets : ℕ) (x y : ℤ) : ℕ :=
  (jsXor32 (x * 92837111) (y * 689287499)).natAbs % numHashBuckets

/-- The spatial hash grid portion of the simulator state:
`particleListHeads` (bucket index → first particle index or -1),
`particleListNextIdx` (particle index → next particle index or -1),
and the list of currently active buckets (the valid prefix
`activeBuckets[0 .. numActiveBuckets)` of the source's array). -/
structure HGrid where
  heads : ℕ → ℤ
  next : ℕ → ℤ
  active : List ℕ

/-- One iteration of the insertion loop of `Simulator.populateHashGrid`:
particle `i` is prepended to the linked list of bucket `bkt i`, and the
bucket is appended to the active list if it was empty. -/
def insertHG (bkt : ℕ → ℕ) (g : HGrid) (i : ℕ) : HGrid :=
  let b := bkt i
  let headIdx := g.heads b
  { heads := fun b' => if b' = b then (i : ℤ) else g.heads b'
    next := fun j => if j = i then headIdx else g.next j
    active := if headIdx = -1 then g.active ++ [b] else g.active }

/-- The insertion loop of `populateHashGrid`: insert particles
`0, 1, …, n-1` in order, starting from head array `heads0`, stale next
array `next0`, and an empty active list. -/
def buildHG (bkt : ℕ → ℕ) (n : ℕ) (heads0 next0 : ℕ → ℤ) : HGrid :=
  (List.range n).foldl (insertHG bkt) ⟨heads0, next0, []⟩

/-- The clear phase of `populateHashGrid` (source lines 492-501): first
reset the heads listed in `activeBuckets`, then reset every bucket head
`i < numHashBuckets`, then set `numActiveBuckets = 0`.  Returns the new
head array and the new (empty) active list. -/
def clearGrid (numHashBuckets : ℕ) (active : List ℕ) (heads : ℕ → ℤ) :
    (ℕ → ℤ) × List ℕ :=
  let heads1 := active.foldl (fun f b => fun b' => if b' = b then -1 else f b') heads
  let heads2 := fun b => if b < numHashBuckets then (-1 : ℤ) else heads1 b
  (heads2, [])

/-- Reading a bucket's linked list: follow `next` from `cursor` until the
sentinel `-1`, collecting particle indices.  `fuel` bounds the walk; any
`fuel ≥` the list length yields the full list (the source's `while` loop
terminates because every `next` pointer strictly decreases). -/
def chainList (next : ℕ → ℤ) : ℕ → ℤ → List ℕ
  | 0, _ => []
  | fuel + 1, cursor =>
      if cursor = -1 then []
      else cursor.toNat :: chainList next fuel (next cursor.toNat)

/-- The mutable state of a `Simulator` instance: every field mutated or
read by `update()` and its callees.  `window.screenX`/`window.screenY`
are external inputs passed to `update` separately. -/
structure SimState where
  running : Bool
  width : ℚ
  height : ℚ
  particles : List Particle
  screenX : ℚ
  screenY : ℚ
  screenMoveSmootherX : ℚ
  screenMoveSmootherY : ℚ
  mouseX : ℚ
  mouseY : ℚ
  attract : Bool
  repel : Bool
  emit : Bool
  drain : Bool
  drag : Bool
  mousePrevX : ℚ
  mousePrevY : ℚ
  useSpatialHash : Bool
  numHashBuckets : ℕ
  activeBuckets : List ℕ
  particleListHeads : ℕ → ℤ
  particleListNextIdx : ℕ → ℤ
  material : Material

/-- The bucket index of particle `i` in the insertion loop of
`populateHashGrid`: hash of its cell
`(⌊posX * (1/kernelRadius)⌋, ⌊posY * (1/kernelRadius)⌋)`. -/
def bucketOfParticle (s : SimState) (i : ℕ) : ℕ :=
  let p := s.particles.getD i default
  getHashBucketIdx s.numHashBuckets ⌊p.posX * (1 / s.material.kernelRadius)⌋
    ⌊p.posY * (1 / s.material.kernelRadius)⌋

/-- `Simulator.populateHashGrid()`: clear the grid, then insert every
particle (in index order) into the bucket of its current cell
`(⌊posX/kernelRadius⌋, ⌊posY/kernelRadius⌋)`. -/
def populateHashGrid (s : SimState) : SimState :=
  let cleared := clearGrid s.numHashBuckets s.activeBuckets s.particleListHeads
  let g := buildHG (bucketOfParticle s) s.particles.length cleared.1 s.particleListNextIdx
  { s with particleListHeads := g.heads
           particleListNextIdx := g.next
           activeBuckets := g.active }

/-- `pressure` in `doubleDensityRelaxation` (source lines 434, 448-450):
`stiffness * (density - restDensity)`, then clamped to at most 1.  The
`stiffness` argument is the pre-multiplied `material.stiffness * dt * dt`. -/
def computePressure (stiffness restDensity density : ℚ) : ℚ :=
  let p := stiffness * (density - restDensity)
  if p > 1 then 1 else p

/-- `nearPressure` in `doubleDensityRelaxation` (source lines 435, 452-454):
`nearStiffness * nearDensity`, then clamped to at most 1. -/
def computeNearPressure (nearStiffness nearDensity : ℚ) : ℚ :=
  let np := nearStiffness * nearDensity
  if np > 1 then 1 else np

/-- The per-neighbor displacement scalar `D` of `doubleDensityRelaxation`
(source line 463): `(pressure * closeness + nearPressure * closeness²) / 2`. -/
def relaxD (pressure nearPressure closeness : ℚ) : ℚ :=
  (pressure * closeness + nearPressure * closeness * closeness) / 2

/-- A recorded neighbor of the currently relaxed particle: its index in
the particle array, the unit direction from the particle to it, and its
closeness `1 - r/h`. -/
structure NRec where
  idx : ℕ
  unitX : ℚ
  unitY : ℚ
  closeness : ℚ
  deriving DecidableEq

/-- The neighbor-acceptance test of `doubleDensityRelaxation` (source
lines 367-397) for a single candidate `p1` against `p0`: reject if either
axis difference exceeds `kernelRadius` in magnitude or `r² ≥ h²`;
otherwise compute `r = sqrt(r²)`, `closeness = 1 - r * (1/h)` and the
unit direction `(diffX/r, diffY/r)`.  `sq` models `Math.sqrt`. -/
def considerNeighbor (sq : ℚ → ℚ) (kernelRadius kernelRadiusSq kernelRadiusInv : ℚ)
    (p0 p1 : Particle) : Option (ℚ × ℚ × ℚ) :=
  let diffX := p1.posX - p0.posX
  if diffX > kernelRadius ∨ diffX < -kernelRadius then none
  else
    let diffY := p1.posY - p0.posY
    if diffY > kernelRadius ∨ diffY < -kernelRadius then none
    else
      let rSq := diffX * diffX + diffY * diffY
      if rSq < kernelRadiusSq then
        let r := sq rSq
        let q := r * kernelRadiusInv
        let closeness := 1 - q
        some (diffX / r, diffY / r, closeness)
      else none

/-- Accumulator of the neighbor-gathering loops: density, near-density
and the recorded neighbor cache. -/
structure GatherAcc where
  density : ℚ
  nearDensity : ℚ
  recs : List NRec

/-- The inner `while (neighborIdx != -1)` walk of the gathering phase:
scan one bucket's linked list, skipping the particle itself, and record
every accepted neighbor, accumulating `density += closeness²` and
`nearDensity += closeness³`. -/
def gatherChain (sq : ℚ → ℚ) (h hSq hInv : ℚ) (ps : List Particle) (p0 : Particle)
    (selfIdx : ℕ) (next : ℕ → ℤ) : ℕ → ℤ → GatherAcc → GatherAcc
  | 0, _, acc => acc
  | fuel + 1, cursor, acc =>
      if cursor = -1 then acc
      else
        let nIdx := cursor.toNat
        if nIdx = selfIdx then gatherChain sq h hSq hInv ps p0 selfIdx next fuel (next nIdx) acc
        else
          let p1 := ps.getD nIdx default
          match considerNeighbor sq h hSq hInv p0 p1 with
          | none => gatherChain sq h hSq hInv ps p0 selfIdx next fuel (next nIdx) acc
          | some (ux, uy, c) =>
              gatherChain sq h hSq hInv ps p0 selfIdx next fuel (next nIdx)
                ⟨acc.density + c * c, acc.nearDensity + c * (c * c),
                 acc.recs ++ [⟨nIdx, ux, uy, c⟩]⟩

/-- The 3×3 cell offsets scanned around a particle's cell, in source
order (`bucketDX` outer from -1 to 1, `bucketDY` inner from -1 to 1). -/
def cellOffsets : List (ℤ × ℤ) :=
  [(-1, -1), (-1, 0), (-1, 1), (0, -1), (0, 0), (0, 1), (1, -1), (1, 0), (1, 1)]

/-- The gathering phase for one particle: scan the 3×3 block of cells,
deduplicating visited bucket indices (hash collisions), walking each new
bucket's list with `gatherChain`. -/
def gatherBuckets (sq : ℚ → ℚ) (numHashBuckets : ℕ) (h hSq hInv : ℚ)
    (heads next : ℕ → ℤ) (fuel : ℕ) (ps : List Particle) (p0 : Particle)
    (selfIdx : ℕ) (bucketX bucketY : ℤ) : GatherAcc :=
  (cellOffsets.foldl
    (fun st d =>
      let bucketIdx := getHashBucketIdx numHashBuckets (bucketX + d.1) (bucketY + d.2)
      if bucketIdx ∈ st.1 then st
      else
        (st.1 ++ [bucketIdx],
         gatherChain sq h hSq hInv ps p0 selfIdx next fuel (heads bucketIdx) st.2))
    ([], ⟨0, 0, []⟩)).2

/-- The displacement loop of `doubleDensityRelaxation` (source lines
459-475): for each recorded neighbor, add `+D·u` to the neighbor's
position in place and subtract `D·u` from the running totals
`(dispX, dispY)` for the particle itself. -/
def dispLoop (pressure nearPressure : ℚ) :
    List NRec → List Particle × ℚ × ℚ → List Particle × ℚ × ℚ
  | [], st => st
  | r :: rs, (ps, dispX, dispY) =>
      let p1 := ps.getD r.idx default
      let d := relaxD pressure nearPressure r.closeness
      let dX := d * r.unitX
      let dY := d * r.unitY
      dispLoop pressure nearPressure rs
        (ps.set r.idx { p1 with posX := p1.posX + dX, posY := p1.posY + dY },
         dispX - dX, dispY - dY)

/-- The displacement application for one particle (source lines 456-478):
run the neighbor loop starting from zero accumulated displacement, then
add the accumulated total to the particle's own position once. -/
def applyDisplacements (pressure nearPressure : ℚ) (recs : List NRec) (selfIdx : ℕ)
    (ps : List Particle) : List Particle :=
  let t := dispLoop pressure nearPressure recs (ps, 0, 0)
  let q := t.1.getD selfIdx default
  t.1.set selfIdx { q with posX := q.posX + t.2.1, posY := q.posY + t.2.2 }

/-- The full relaxation of one particle `selfIdx`: gather neighbors of
its current position, derive clamped pressures, and apply displacements. -/
def processParticle (sq : ℚ → ℚ) (numHashBuckets : ℕ)
    (h hSq hInv restDensity stiffness nearStiffness : ℚ) (heads next : ℕ → ℤ)
    (fuel : ℕ) (ps : List Particle) (selfIdx : ℕ) : List Particle :=
  let p0 := ps.getD selfIdx default
  let bucketX := ⌊p0.posX * hInv⌋
  let bucketY := ⌊p0.posY * hInv⌋
  let acc := gatherBuckets sq numHashBuckets h hSq hInv heads next fuel ps p0 selfIdx
    bucketX bucketY
  let pressure := computePressure stiffness restDensity acc.density
  let nearPressure := computeNearPressure nearStiffness acc.nearDensity
  applyDisplacements pressure nearPressure acc.recs selfIdx ps

/-- The `while (selfIdx != -1)` walk of the relaxation's outer loop:
relax every particle in one bucket's linked list in order.  `gfuel` is
the constant fuel handed to every per-particle neighbor gather (the
particle count bounds every chain), while the first `ℕ` argument is the
decreasing fuel of this walk itself. -/
def relaxChain (sq : ℚ → ℚ) (numHashBuckets : ℕ)
    (h hSq hInv restDensity stiffness nearStiffness : ℚ) (heads next : ℕ → ℤ)
    (gfuel : ℕ) : ℕ → ℤ → List Particle → List Particle
  | 0, _, ps => ps
  | fuel + 1, cursor, ps =>
      if cursor = -1 then ps
      else
        let i := cursor.toNat
        relaxChain sq numHashBuckets h hSq hInv restDensity stiffness nearStiffness
          heads next gfuel fuel (next i)
          (processParticle sq numHashBuckets h hSq hInv restDensity stiffness
            nearStiffness heads next gfuel ps i)

/-- `Simulator.doubleDensityRelaxation(dt)`: iterate over the active
buckets in order, walking each bucket's linked list and relaxing each
particle in turn against the shared, in-place mutated particle array. -/
def doubleDensityRelaxation (sq : ℚ → ℚ) (dt : ℚ) (s : SimState) : SimState :=
  let kernelRadius := s.material.kernelRadius
  let kernelRadiusSq := kernelRadius * kernelRadius
  let kernelRadiusInv := 1 / kernelRadius
  let restDensity := s.material.restDensity
  let stiffness := s.material.stiffness * dt * dt
  let nearStiffness := s.material.nearStiffness * dt * dt
  let fuel := s.particles.length
  let ps' := s.activeBuckets.foldl
    (fun ps ab =>
      relaxChain sq s.numHashBuckets kernelRadius kernelRadiusSq kernelRadiusInv
        restDensity stiffness nearStiffness s.particleListHeads
        s.particleListNextIdx fuel fuel (s.particleListHeads ab) ps)
    s.particles
  { s with particles := ps' }

/-- The per-particle body of `Simulator.resolveCollisions(dt)`: per axis,
if the position is below `5` pull it up by `boundaryMul * (5 - pos)`,
else if above `extent - 5` pull it down by `boundaryMul * ((extent-5) - pos)`,
with `boundaryMul = 0.5 * dt * dt`. -/
def resolveParticle (dt width height : ℚ) (p : Particle) : Particle :=
  let boundaryMul := 0.5 * dt * dt
  let posX1 :=
    if p.posX < 5 then p.posX + boundaryMul * (5 - p.posX)
    else if p.posX > width - 5 then p.posX + boundaryMul * ((width - 5) - p.posX)
    else p.posX
  let posY1 :=
    if p.posY < 5 then p.posY + boundaryMul * (5 - p.posY)
    else if p.posY > height - 5 then p.posY + boundaryMul * ((height - 5) - p.posY)
    else p.posY
  { p with posX := posX1, posY := posY1 }

/-- `Simulator.resolveCollisions(dt)`: apply the boundary pull-back to
every particle. -/
def resolveCollisions (dt : ℚ) (s : SimState) : SimState :=
  { s with particles := s.particles.map (resolveParticle dt s.width s.height) }

/-- The per-particle body of the integration loop of `update()` (source
lines 201-239): gravity, optional attract/repel impulse toward/away from
the pointer, optional drag velocity override, then the screen-move shift
of the position. -/
def integrateParticle (sq : ℚ → ℚ) (gravX gravY attractRepel : ℚ) (dragOn : Bool)
    (dragX dragY mouseX mouseY screenMoveX screenMoveY : ℚ) (p : Particle) :
    Particle :=
  let velX1 := p.velX + gravX
  let velY1 := p.velY + gravY
  let v2 :=
    if attractRepel ≠ 0 then
      let dx := p.posX - mouseX
      let dy := p.posY - mouseY
      let distSq := dx * dx + dy * dy
      if distSq < 100000 ∧ distSq > 0.1 then
        let dist := sq distSq
        let invDist := 1 / dist
        let dxu := dx * invDist
        let dyu := dy * invDist
        (velX1 - attractRepel * dxu, velY1 - attractRepel * dyu)
      else (velX1, velY1)
    else (velX1, velY1)
  let v3 :=
    if dragOn then
      let dx := p.posX - mouseX
      let dy := p.posY - mouseY
      let distSq := dx * dx + dy * dy
      if distSq < 10000 ∧ distSq > 0.1 then (dragX, dragY) else v2
    else v2
  { p with velX := v3.1, velY := v3.2,
           posX := p.posX - screenMoveX, posY := p.posY - screenMoveY }

/-- `Simulator.emitParticles()`: push 10 particles near the pointer.
`Math.random()` is modelled by the input stream `rnd`, read in call
order (four draws per particle: posX, posY, velX, velY). -/
def emitParticles (rnd : ℕ → ℚ) (s : SimState) : SimState :=
  let newParticles := (List.range 10).map (fun i =>
    let posX := s.mouseX + rnd (4 * i) * 10 - 5
    let posY := s.mouseY + rnd (4 * i + 1) * 10 - 5
    let velX := rnd (4 * i + 2) * 2 - 1
    let velY := rnd (4 * i + 3) * 2 - 1
    Particle.mk posX posY posX posY velX velY)
  { s with particles := s.particles ++ newParticles }

/-- The scan of `Simulator.drainParticles()`: for `i` from 0 while
`i < numParticles`, if particle `i` is within distance² 10000 of the
pointer, overwrite it with the current last live particle and shrink the
live count (the loop index still advances, as in the source). -/
def drainLoop (mouseX mouseY : ℚ) (i n : ℕ) (arr : List Particle) :
    ℕ × List Particle :=
  if hin : i < n then
    let p := arr.getD i default
    let dx := p.posX - mouseX
    let dy := p.posY - mouseY
    if dx * dx + dy * dy < 10000 then
      drainLoop mouseX mouseY (i + 1) (n - 1) (arr.set i (arr.getD (n - 1) default))
    else
      drainLoop mouseX mouseY (i + 1) n arr
  else (n, arr)
  termination_by n - i
  decreasing_by
    · omega
    · omega

/-- `Simulator.drainParticles()`: run the scan and truncate the particle
array to the remaining live count. -/
def drainParticles (s : SimState) : SimState :=
  let t := drainLoop s.mouseX s.mouseY 0 s.particles.length s.particles
  { s with particles := t.2.take t.1 }

/-- `Simulator.applyViscosity(dt)`: a no-op extension hook. -/
def applyViscosity (dt : ℚ) (s : SimState) : SimState := s

/-- `Simulator.adjustSprings(dt)`: a no-op extension hook. -/
def adjustSprings (dt : ℚ) (s : SimState) : SimState := s

/-- `Simulator.applySpringDisplacements(dt)`: a no-op extension hook. -/
def applySpringDisplacements (dt : ℚ) (s : SimState) : SimState := s

/-- `Simulator.update()` — one simulation step.  `winX`/`winY` are the
external `window.screenX`/`window.screenY` inputs and `rnd` the
`Math.random()` stream consumed by an emission, `sq` models `Math.sqrt`.
The screen-move smoothing and the pointer-drag bookkeeping run before
the `running` check, exactly as in the source; the physics pipeline
(emit/drain, integration, viscosity hook, position prediction, grid
rebuild, spring hooks, density relaxation, boundary resolution, velocity
reconciliation) runs only while `running`. -/
def update (sq : ℚ → ℚ) (rnd : ℕ → ℚ) (winX winY : ℚ) (s : SimState) : SimState :=
  let smsX := s.screenMoveSmootherX + (winX - s.screenX)
  let smsY := s.screenMoveSmootherY + (winY - s.screenY)
  let screenMoveX := if smsX > 50 then 50 else if smsX < -50 then -50 else smsX
  let screenMoveY := if smsY > 50 then 50 else if smsY < -50 then -50 else smsY
  let dragX := s.mouseX - s.mousePrevX
  let dragY := s.mouseY - s.mousePrevY
  let s1 := { s with screenX := winX, screenY := winY,
                     screenMoveSmootherX := smsX - screenMoveX,
                     screenMoveSmootherY := smsY - screenMoveY,
                     mousePrevX := s.mouseX, mousePrevY := s.mouseY }
  if s.running = false then s1
  else
    let s2 := if s1.emit then emitParticles rnd s1 else s1
    let s3 := if s2.drain then drainParticles s2 else s2
    let dt := s3.material.dt
    let kr := s3.material.kernelRadius
    let gravX := 0.02 * kr * s3.material.gravX * dt
    let gravY := 0.02 * kr * s3.material.gravY * dt
    let attractRepel :=
      (if s3.attract then 0.01 * kr else 0) - (if s3.repel then 0.01 * kr else 0)
    let integrated := s3.particles.map
      (integrateParticle sq gravX gravY attractRepel s3.drag dragX dragY
        s3.mouseX s3.mouseY screenMoveX screenMoveY)
    let s4 := { s3 with particles := integrated }
    let s5 := applyViscosity dt s4
    let predicted := s5.particles.map (fun p =>
      { p with prevX := p.posX, prevY := p.posY,
               posX := p.posX + p.velX * dt, posY := p.posY + p.velY * dt })
    let s6 := { s5 with particles := predicted }
    let s7 := populateHashGrid s6
    let s8 := adjustSprings dt s7
    let s9 := applySpringDisplacements dt s8
    let s10 := doubleDensityRelaxation sq dt s9
    let s11 := resolveCollisions dt s10
    let dtInv := 1 / dt
    let reconciled := s11.particles.map (fun p =>
      { p with velX := (p.posX - p.prevX) * dtInv,
               velY := (p.posY - p.prevY) * dtInv })
    { s11 with particles := reconciled }

/-- Modelled from the spec: `pressure = stiffness * (density − restDensity)`,
clamped independently to at most `pressureClamp` (spec §4.3.2). -/
def specPressure (stiffness restDensity density pressureClamp : ℚ) : ℚ :=
  min (stiffness * (density - restDensity)) pressureClamp

/-- Modelled from the spec: `nearPressure = nearStiffness * nearDensity`,
clamped independently to at most `pressureClamp` (spec §4.3.2). -/
def specNearPressure (nearStiffness nearDensity pressureClamp : ℚ) : ℚ :=
  min (nearStiffness * nearDensity) pressureClamp

/-- Modelled from the spec: per-neighbor scalar displacement magnitude
`D = dt² * (pressure*closeness + nearPressure*closeness²) / 2` (spec §4.3.3),
with `pressure`/`nearPressure` the clamped values of §4.3.2. -/
def specDisplacementMagnitude (dt pressure nearPressure closeness : ℚ) : ℚ :=
  dt * dt * (pressure * closeness + nearPressure * closeness * closeness) / 2

theorem emitParticles_material (rnd : ℕ → ℚ) (s : SimState) :
    (emitParticles rnd s).material = s.material := rfl

theorem drainParticles_material (s : SimState) :
    (drainParticles s).material = s.material := rfl

/-- C5: for all integer cell coordinates, `getHashBucketIdx` is the exact
`abs((bucketX * 92837111) XOR (bucketY * 689287499)) mod numBuckets`
bit-mixing of the source with 32-bit signed coercion (this is its
definition here), hence always a valid bucket index; and the golden value:
`hash(3,4)` with `numBuckets = 5000` is exactly `775`. -/
theorem hash_golden_value :
    getHashBucketIdx 5000 3 4 = 775 ∧
    (∀ x y : ℤ, getHashBucketIdx 5000 x y =
      (jsXor32 (x * 92837111) (y * 689287499)).natAbs % 5000) ∧
    (∀ x y : ℤ, getHashBucketIdx 5000 x y < 5000) := by
  refine ⟨by decide, fun x y => rfl, fun x y => Nat.mod_lt _ (by norm_num)⟩

/-- C3: after the clamping step of the relaxation pass, the pressure and
near-pressure used for displacement are each at most `1` (the default
`pressureClamp`), for every possible density, near-density, stiffness and
timestep — in particular regardless of the number of neighbors. -/
theorem pressure_clamp_bound :
    ∀ stiffness dt restDensity density nearStiffness nearDensity : ℚ,
      computePressure (stiffness * dt * dt) restDensity density ≤ 1 ∧
      computeNearPressure (nearStiffness * dt * dt) nearDensity ≤ 1 := by
  intro stiffness dt restDensity density nearStiffness nearDensity
  constructor
  · simp only [computePressure]
    split <;> linarith
  · simp only [computeNearPressure]
    split <;> linarith

/-- C2 (counterexample): the claimed scalar
`D = dt² * (pressure*closeness + nearPressure*closeness²) / 2`, with the
spec's clamped pressures, disagrees with the code's displacement scalar.
At `stiffness = 1`, `dt = 2`, `restDensity = 0`, `density = 2`,
`closeness = 1/2` the code clamps the pre-multiplied
`stiffness*dt²*(density-restDensity) = 8` down to `1` and yields
`D = 1/4`, while the spec formula clamps `stiffness*(density-restDensity) = 2`
to `1` and then multiplies by `dt² = 4`, yielding `1`. -/
theorem relax_displacement_scalar_counterexample :
    relaxD (computePressure ((1 : ℚ) * 2 * 2) 0 2) (computeNearPressure ((0 : ℚ) * 2 * 2) 0)
        (1 / 2) ≠
      specDisplacementMagnitude 2 (specPressure 1 0 2 1) (specNearPressure 0 0 1) (1 / 2) := by
  norm_num [relaxD, computePressure, computeNearPressure, specDisplacementMagnitude,
    specPressure, specNearPressure]

theorem getD_set_self {α : Type} [Inhabited α] (l : List α) (i : ℕ) (a : α)
    (h : i < l.length) : (l.set i a).getD i default = a := by
  rw [List.getD_eq_getElem?_getD, List.getElem?_set_self']
  simp [List.getElem?_eq_getElem h]

theorem getD_set_ne {α : Type} [Inhabited α] (l : List α) (i j : ℕ) (a : α)
    (h : i ≠ j) : (l.set i a).getD j default = l.getD j default := by
  rw [List.getD_eq_getElem?_getD, List.getD_eq_getElem?_getD, List.getElem?_set_ne h]

theorem dispLoop_length (pressure nearPressure : ℚ) :
    ∀ (recs : List NRec) (ps : List Particle) (dx dy : ℚ),
      (dispLoop pressure nearPressure recs (ps, dx, dy)).1.length = ps.length := by
  intro recs
  induction recs with
  | nil => intro ps dx dy; rfl
  | cons r rs ih =>
      intro ps dx dy
      simp only [dispLoop]
      rw [ih]
      simp

theorem dispLoop_disp (pressure nearPressure : ℚ) :
    ∀ (recs : List NRec) (ps : List Particle) (dx dy : ℚ),
      (dispLoop pressure nearPressure recs (ps, dx, dy)).2.1 =
        dx - (recs.map (fun r => relaxD pressure nearPressure r.closeness * r.unitX)).sum ∧
      (dispLoop pressure nearPressure recs (ps, dx, dy)).2.2 =
        dy - (recs.map (fun r => relaxD pressure nearPressure r.closeness * r.unitY)).sum := by
  intro recs
  induction recs with
  | nil => intro ps dx dy; constructor <;> simp [dispLoop]
  | cons r rs ih =>
      intro ps dx dy
      simp only [dispLoop]
      obtain ⟨h1, h2⟩ := ih
        (ps.set r.idx
          (let p1 := ps.getD r.idx default
           { p1 with
              posX := p1.posX + relaxD pressure nearPressure r.closeness * r.unitX,
              posY := p1.posY + relaxD pressure nearPressure r.closeness * r.unitY }))
        (dx - relaxD pressure nearPressure r.closeness * r.unitX)
        (dy - relaxD pressure nearPressure r.closeness * r.unitY)
      refine ⟨?_, ?_⟩
      · rw [h1]; simp; ring
      · rw [h2]; simp; ring

theorem dispLoop_getD_not_mem (pressure nearPressure : ℚ) :
    ∀ (recs : List NRec) (ps : List Particle) (dx dy : ℚ) (i : ℕ),
      i ∉ recs.map NRec.idx →
      (dispLoop pressure nearPressure recs (ps, dx, dy)).1.getD i default =
        ps.getD i default := by
  intro recs
  induction recs with
  | nil => intro ps dx dy i _; rfl
  | cons r rs ih =>
      intro ps dx dy i hi
      simp only [List.map_cons, List.mem_cons, not_or] at hi
      simp only [dispLoop]
      rw [ih _ _ _ _ hi.2]
      exact getD_set_ne _ _ _ _ (Ne.symm hi.1)

theorem dispLoop_getD_mem (pressure nearPressure : ℚ) :
    ∀ (recs : List NRec) (ps : List Particle) (dx dy : ℚ),
      (recs.map NRec.idx).Nodup →
      (∀ r ∈ recs, r.idx < ps.length) →
      ∀ r ∈ recs,
        (dispLoop pressure nearPressure recs (ps, dx, dy)).1.getD r.idx default =
          (let p1 := ps.getD r.idx default
           { p1 with
              posX := p1.posX + relaxD pressure nearPressure r.closeness * r.unitX,
              posY := p1.posY + relaxD pressure nearPressure r.closeness * r.unitY }) := by
  intro recs
  induction recs with
  | nil => intro ps dx dy _ _ r hr; cases hr
  | cons r0 rs ih =>
      intro ps dx dy hnd hlen r hr
      simp only [List.map_cons, List.nodup_cons] at hnd
      simp only [dispLoop]
      rcases List.mem_cons.mp hr with rfl | hrs
      · rw [dispLoop_getD_not_mem _ _ _ _ _ _ _ hnd.1]
        exact getD_set_self _ _ _ (hlen r (List.mem_cons_self _ _))
      · have hne : r0.idx ≠ r.idx := by
          intro h
          exact hnd.1 (h ▸ List.mem_map_of_mem NRec.idx hrs)
        rw [ih _ _ _ hnd.2 ?_ r hrs]
        · rw [getD_set_ne _ _ _ _ hne]
        · intro r' hr'
          simpa using hlen r' (List.mem_cons_of_mem _ hr')

/-- C2 (amended): in the displacement phase, given the recorded neighbors
of particle `selfIdx` (each with closeness `c` and unit direction `u`),
the displacement applied per neighbor is `D·u` with
`D = (pressure*c + nearPressure*c²)/2` where `pressure` and `nearPressure`
are the clamped values computed from the pre-multiplied
`stiffness*dt²` (the `dt²` factor is folded into the stiffness before
clamping, not applied outside it): each recorded neighbor's position
receives exactly `+D·u` (in place), the particle itself receives the
accumulated `−ΣD·u` exactly once after all its neighbors are processed,
no other particle moves, and no velocity or previous position changes. -/
theorem relax_displacement_amended
    (matStiffness matNearStiffness dt restDensity density nearDensity : ℚ)
    (pressure nearPressure : ℚ)
    (hP : pressure = computePressure (matStiffness * dt * dt) restDensity density)
    (hNP : nearPressure = computeNearPressure (matNearStiffness * dt * dt) nearDensity)
    (recs : List NRec) (selfIdx : ℕ) (ps : List Particle)
    (hself : selfIdx < ps.length)
    (hidx : ∀ r ∈ recs, r.idx < ps.length ∧ r.idx ≠ selfIdx)
    (hnd : (recs.map NRec.idx).Nodup) :
    (applyDisplacements pressure nearPressure recs selfIdx ps).length = ps.length ∧
    (∀ r ∈ recs,
      ((applyDisplacements pressure nearPressure recs selfIdx ps).getD r.idx default).posX =
        (ps.getD r.idx default).posX + relaxD pressure nearPressure r.closeness * r.unitX ∧
      ((applyDisplacements pressure nearPressure recs selfIdx ps).getD r.idx default).posY =
        (ps.getD r.idx default).posY + relaxD pressure nearPressure r.closeness * r.unitY ∧
      ((applyDisplacements pressure nearPressure recs selfIdx ps).getD r.idx default).prevX =
        (ps.getD r.idx default).prevX ∧
      ((applyDisplacements pressure nearPressure recs selfIdx ps).getD r.idx default).prevY =
        (ps.getD r.idx default).prevY ∧
      ((applyDisplacements pressure nearPressure recs selfIdx ps).getD r.idx default).velX =
        (ps.getD r.idx default).velX ∧
      ((applyDisplacements pressure nearPressure recs selfIdx ps).getD r.idx default).velY =
        (ps.getD r.idx default).velY) ∧
    ((applyDisplacements pressure nearPressure recs selfIdx ps).getD selfIdx default).posX =
      (ps.getD selfIdx default).posX -
        (recs.map (fun r => relaxD pressure nearPressure r.closeness * r.unitX)).sum ∧
    ((applyDisplacements pressure nearPressure recs selfIdx ps).getD selfIdx default).posY =
      (ps.getD selfIdx default).posY -
        (recs.map (fun r => relaxD pressure nearPressure r.closeness * r.unitY)).sum ∧
    ((applyDisplacements pressure nearPressure recs selfIdx ps).getD selfIdx default).prevX =
      (ps.getD selfIdx default).prevX ∧
    ((applyDisplacements pressure nearPressure recs selfIdx ps).getD selfIdx default).velX =
      (ps.getD selfIdx default).velX ∧
    (∀ i, i ∉ recs.map NRec.idx → i ≠ selfIdx →
      (applyDisplacements pressure nearPressure recs selfIdx ps).getD i default =
        ps.getD i default) := by
  have hsm : selfIdx ∉ recs.map NRec.idx := by
    intro hmem
    obtain ⟨r, hr, hri⟩ := List.mem_map.mp hmem
    exact (hidx r hr).2 hri
  have hlen : ∀ r ∈ recs, r.idx < ps.length := fun r hr => (hidx r hr).1
  have hLc : (dispLoop pressure nearPressure recs (ps, 0, 0)).1.length = ps.length :=
    dispLoop_length pressure nearPressure recs ps 0 0
  have hq : (dispLoop pressure nearPressure recs (ps, 0, 0)).1.getD selfIdx default =
      ps.getD selfIdx default :=
    dispLoop_getD_not_mem pressure nearPressure recs ps 0 0 selfIdx hsm
  obtain ⟨hdx, hdy⟩ := dispLoop_disp pressure nearPressure recs ps 0 0
  refine ⟨?_, ?_, ?_, ?_, ?_, ?_, ?_⟩
  · simp only [applyDisplacements]
    rw [List.length_set]
    exact hLc
  · intro r hr
    have hne : r.idx ≠ selfIdx := (hidx r hr).2
    have hmem := dispLoop_getD_mem pressure nearPressure recs ps 0 0 hnd hlen r hr
    simp only [applyDisplacements]
    rw [getD_set_ne _ _ _ _ (Ne.symm hne), hmem]
    exact ⟨rfl, rfl, rfl, rfl, rfl, rfl⟩
  · simp only [applyDisplacements]
    rw [getD_set_self _ _ _ (hLc ▸ hself), hq, hdx]
    ring
  · simp only [applyDisplacements]
    rw [getD_set_self _ _ _ (hLc ▸ hself), hq, hdy]
    ring
  · simp only [applyDisplacements]
    rw [getD_set_self _ _ _ (hLc ▸ hself), hq]
  · simp only [applyDisplacements]
    rw [getD_set_self _ _ _ (hLc ▸ hself), hq]
  · intro i hi hine
    simp only [applyDisplacements]
    rw [getD_set_ne _ _ _ _ (Ne.symm hine)]
    exact dispLoop_getD_not_mem pressure nearPressure recs ps 0 0 i hi

/-- Witness for `relax_displacement_amended`: a concrete two-particle
configuration with one recorded neighbor. -/
theorem relax_displacement_amended_witness :
    (applyDisplacements (computePressure ((1 : ℚ) * 1 * 1) 0 1)
        (computeNearPressure ((1 : ℚ) * 1 * 1) 1) [⟨1, 1, 0, 1 / 2⟩] 0
        [⟨10, 10, 10, 10, 0, 0⟩, ⟨30, 10, 30, 10, 0, 0⟩]).length =
      ([⟨10, 10, 10, 10, 0, 0⟩, ⟨30, 10, 30, 10, 0, 0⟩] : List Particle).length :=
  (relax_displacement_amended 1 1 1 0 1 1
    (computePressure ((1 : ℚ) * 1 * 1) 0 1) (computeNearPressure ((1 : ℚ) * 1 * 1) 1)
    rfl rfl [⟨1, 1, 0, 1 / 2⟩] 0 [⟨10, 10, 10, 10, 0, 0⟩, ⟨30, 10, 30, 10, 0, 0⟩]
    (by norm_num)
    (by intro r hr
        rw [List.mem_singleton] at hr
        subst hr
        exact ⟨by norm_num, by norm_num⟩)
    (by simp)).1

theorem getD_map {α β : Type} [Inhabited α] [Inhabited β] (l : List α) (f : α → β)
    (i : ℕ) (h : i < l.length) : (l.map f).getD i default = f (l.getD i default) := by
  rw [List.getD_eq_getElem?_getD, List.getD_eq_getElem?_getD, List.getElem?_map]
  simp [List.getElem?_eq_getElem h]

/-- A concrete simulator state holding one particle at the origin, used
for the boundary-resolution scenario. -/
def boundaryScenarioState : SimState :=
  { running := true, width := 100, height := 100,
    particles := [⟨0, 0, 0, 0, 0, 0⟩],
    screenX := 0, screenY := 0, screenMoveSmootherX := 0, screenMoveSmootherY := 0,
    mouseX := 50, mouseY := 50,
    attract := false, repel := false, emit := false, drain := false, drag := false,
    mousePrevX := 50, mousePrevY := 50,
    useSpatialHash := true, numHashBuckets := 5000,
    activeBuckets := [], particleListHeads := fun _ => -1,
    particleListNextIdx := fun _ => -1,
    material := Material.make "water" 0.5 0.5 0.5 40 }

/-- C8 (counterexample): a particle at `(0,0)` does not end at `x = 5`
after the boundary stage runs with the code's multiplier: at the
program's `dt = 1` the stage adds `0.5 * (5 - 0)` and the particle ends
at `x = 2.5`, not the full snap to `5` that `restitution = 1.0` would
give. -/
theorem boundary_resolution_counterexample :
    ((resolveCollisions 1 boundaryScenarioState).particles.getD 0 default).posX ≠ 5 := by
  norm_num [resolveCollisions, boundaryScenarioState, resolveParticle]

/-- C8 (amended): the boundary stage handles each axis independently with
the hardcoded multiplier `boundaryMul = 0.5*dt*dt` (not a configurable
restitution; `0.5` at the default `dt = 1`): below `5` it adds
`0.5*dt²*(5 − pos)`, above `extent − 5` it adds `0.5*dt²*((extent−5) − pos)`
(else-if, so at most one branch per axis); it never modifies velocity or
previous position; and a particle at `(0,0)` ends at `(2.5, 2.5)`. -/
theorem boundary_resolution_amended :
    (∀ (dt w h : ℚ) (p : Particle),
      (resolveParticle dt w h p).velX = p.velX ∧
      (resolveParticle dt w h p).velY = p.velY ∧
      (resolveParticle dt w h p).prevX = p.prevX ∧
      (resolveParticle dt w h p).prevY = p.prevY ∧
      (resolveParticle dt w h p).posX =
        (if p.posX < 5 then p.posX + 0.5 * dt * dt * (5 - p.posX)
         else if p.posX > w - 5 then p.posX + 0.5 * dt * dt * ((w - 5) - p.posX)
         else p.posX) ∧
      (resolveParticle dt w h p).posY =
        (if p.posY < 5 then p.posY + 0.5 * dt * dt * (5 - p.posY)
         else if p.posY > h - 5 then p.posY + 0.5 * dt * dt * ((h - 5) - p.posY)
         else p.posY)) ∧
    (∀ (dt : ℚ) (s : SimState) (i : ℕ), i < s.particles.length →
      (resolveCollisions dt s).particles.getD i default =
        resolveParticle dt s.width s.height (s.particles.getD i default)) ∧
    (resolveParticle 1 100 100 ⟨0, 0, 0, 0, 0, 0⟩).posX = 5 / 2 ∧
    (resolveParticle 1 100 100 ⟨0, 0, 0, 0, 0, 0⟩).posY = 5 / 2 := by
  refine ⟨?_, ?_, ?_, ?_⟩
  · intro dt w h p
    exact ⟨rfl, rfl, rfl, rfl, rfl, rfl⟩
  · intro dt s i hi
    exact getD_map s.particles _ i hi
  · norm_num [resolveParticle]
  · norm_num [resolveParticle]

/-- Witness for `boundary_resolution_amended`: the per-index
characterization of the boundary stage at the concrete one-particle state. -/
theorem boundary_resolution_amended_witness :
    (resolveCollisions 1 boundaryScenarioState).particles.getD 0 default =
      resolveParticle 1 boundaryScenarioState.width boundaryScenarioState.height
        (boundaryScenarioState.particles.getD 0 default) :=
  boundary_resolution_amended.2.1 1 boundaryScenarioState 0 (by simp [boundaryScenarioState])

theorem clearGrid_heads_lt (numHashBuckets : ℕ) (active : List ℕ) (heads : ℕ → ℤ) :
    ∀ b, b < numHashBuckets → (clearGrid numHashBuckets active heads).1 b = -1 := by
  intro b hb
  simp [clearGrid, hb]

theorem clearGrid_active_empty (numHashBuckets : ℕ) (active : List ℕ) (heads : ℕ → ℤ) :
    (clearGrid numHashBuckets active heads).2 = [] := rfl

/-- C6 (counterexample): the clear phase does not leave non-active bucket
heads unchanged: with an empty active list and every head equal to `7`,
bucket `0` is nevertheless reset to `-1` by the unconditional full-array
loop of the source. -/
theorem clear_counterexample :
    (clearGrid 2 [] (fun _ => (7 : ℤ))).1 0 ≠ 7 := by
  norm_num [clearGrid]

/-- C6 (amended): the clear phase of a rebuild first resets the heads
listed in `activeBuckets` and then additionally resets every bucket head
below `numHashBuckets` to `-1` — so after the clear phase all bucket
heads are empty regardless of `activeBuckets` (cost `O(numBuckets)`, not
`O(active)`) — and it empties `activeBuckets`. -/
theorem clear_amended (numHashBuckets : ℕ) (active : List ℕ) (heads : ℕ → ℤ) :
    (clearGrid numHashBuckets active heads).2 = [] ∧
    (∀ b, b < numHashBuckets → (clearGrid numHashBuckets active heads).1 b = -1) :=
  ⟨clearGrid_active_empty numHashBuckets active heads,
   clearGrid_heads_lt numHashBuckets active heads⟩

/-- Witness for `clear_amended` at a concrete grid state. -/
theorem clear_amended_witness :
    (clearGrid 5000 [3] (fun _ => (9 : ℤ))).2 = [] ∧
    (clearGrid 5000 [3] (fun _ => (9 : ℤ))).1 7 = -1 :=
  ⟨(clear_amended 5000 [3] (fun _ => (9 : ℤ))).1,
   (clear_amended 5000 [3] (fun _ => (9 : ℤ))).2 7 (by norm_num)⟩

/-- A particle used for the coincident-pair scenario. -/
def coincidentParticle : Particle := ⟨10, 10, 10, 10, 0, 0⟩

/-- C7 (counterexample): a coincident neighbor is not skipped: with
`kernelRadius = 40` the pair at zero distance passes every acceptance
test (`rSq = 0 < h²`) and a neighbor record is produced — there is no
epsilon guard in the relaxation's gathering loop. -/
theorem coincident_neighbor_counterexample :
    considerNeighbor (fun _ => 0) 40 1600 (1 / 40)
      coincidentParticle coincidentParticle ≠ none := by
  norm_num [considerNeighbor, coincidentParticle]
  exact Option.some_ne_none _

/-- C7 (amended): for any pair of coincident particles and any positive
kernel radius, the gathering loop accepts the neighbor (the claim's
"skip" does not happen): the computed squared distance is `0`, the
closeness is `1 - sqrt(0) * (1/h)`, and both unit-direction components
are computed by dividing zero by `sqrt(0)` — in JS float arithmetic a
`0/0 = NaN`, i.e. an undefined unit direction, with no epsilon guard. -/
theorem coincident_neighbor_amended (sq : ℚ → ℚ) (h hSq hInv : ℚ) (p0 p1 : Particle)
    (hx : p1.posX = p0.posX) (hy : p1.posY = p0.posY)
    (hpos : 0 < h) (hsq : hSq = h * h) :
    considerNeighbor sq h hSq hInv p0 p1 =
      some (0 / sq 0, 0 / sq 0, 1 - sq 0 * hInv) := by
  subst hsq
  simp only [considerNeighbor, hx, hy, sub_self]
  rw [if_neg (by rintro (hc | hc) <;> linarith)]
  rw [if_neg (by rintro (hc | hc) <;> linarith)]
  rw [if_pos (by nlinarith)]
  norm_num

/-- Witness for `coincident_neighbor_amended`: the concrete coincident
pair with `kernelRadius = 40` and the zero square root model. -/
theorem coincident_neighbor_amended_witness :
    considerNeighbor (fun _ => (0 : ℚ)) 40 1600 (1 / 40)
      coincidentParticle coincidentParticle =
      some (0 / (fun _ => (0 : ℚ)) 0, 0 / (fun _ => (0 : ℚ)) 0,
        1 - (fun _ => (0 : ℚ)) 0 * (1 / 40)) :=
  coincident_neighbor_amended (fun _ => 0) 40 1600 (1 / 40)
    coincidentParticle coincidentParticle rfl rfl (by norm_num) (by norm_num)

/-- A concrete paused simulator state whose pointer has moved since the
previous frame (`mouseX = 10`, `mousePrevX = 0`). -/
def pausedScenarioState : SimState :=
  { running := false, width := 100, height := 100,
    particles := [⟨50, 50, 50, 50, 0, 0⟩],
    screenX := 0, screenY := 0, screenMoveSmootherX := 0, screenMoveSmootherY := 0,
    mouseX := 10, mouseY := 10,
    attract := false, repel := false, emit := false, drain := false, drag := false,
    mousePrevX := 0, mousePrevY := 0,
    useSpatialHash := true, numHashBuckets := 5000,
    activeBuckets := [], particleListHeads := fun _ => -1,
    particleListNextIdx := fun _ => -1,
    material := Material.make "water" 0.5 0.5 0.5 40 }

/-- C9 (counterexample): a paused `step()` is not a no-op on the whole
simulator state: with the pointer moved since the previous frame, the
pre-check bookkeeping still overwrites `mousePrevX` (0 becomes 10), so
the state after the call differs from the state before it. -/
theorem paused_step_counterexample :
    update (fun _ => 0) (fun _ => 0) 0 0 pausedScenarioState ≠ pausedScenarioState := by
  intro hcontra
  have h2 := congrArg SimState.mousePrevX hcontra
  rw [show (update (fun _ => 0) (fun _ => 0) 0 0 pausedScenarioState).mousePrevX = 10
        from rfl] at h2
  rw [show pausedScenarioState.mousePrevX = 0 from rfl] at h2
  exact absurd h2 (by norm_num)

/-- C9 (amended): when the simulation is paused, `update()` leaves the
particles, the grid arrays, the active-bucket list, the material and
every physics-relevant field unchanged, but it still performs the
pre-check bookkeeping: `mousePrev` is set to the current pointer
position and the window-position tracking fields are updated. -/
theorem paused_step_amended (sq : ℚ → ℚ) (rnd : ℕ → ℚ) (winX winY : ℚ)
    (s : SimState) (hrun : s.running = false) :
    (update sq rnd winX winY s).particles = s.particles ∧
    (update sq rnd winX winY s).particleListHeads = s.particleListHeads ∧
    (update sq rnd winX winY s).particleListNextIdx = s.particleListNextIdx ∧
    (update sq rnd winX winY s).activeBuckets = s.activeBuckets ∧
    (update sq rnd winX winY s).material = s.material ∧
    (update sq rnd winX winY s).running = s.running ∧
    (update sq rnd winX winY s).width = s.width ∧
    (update sq rnd winX winY s).height = s.height ∧
    (update sq rnd winX winY s).mouseX = s.mouseX ∧
    (update sq rnd winX winY s).mouseY = s.mouseY ∧
    (update sq rnd winX winY s).mousePrevX = s.mouseX ∧
    (update sq rnd winX winY s).mousePrevY = s.mouseY ∧
    (update sq rnd winX winY s).screenX = winX ∧
    (update sq rnd winX winY s).screenY = winY := by
  simp [update, hrun]

/-- Witness for `paused_step_amended` at the concrete paused state. -/
theorem paused_step_amended_witness :
    (update (fun _ => 0) (fun _ => 0) 0 0 pausedScenarioState).particles =
      pausedScenarioState.particles ∧
    (update (fun _ => 0) (fun _ => 0) 0 0 pausedScenarioState).particleListHeads =
      pausedScenarioState.particleListHeads ∧
    (update (fun _ => 0) (fun _ => 0) 0 0 pausedScenarioState).particleListNextIdx =
      pausedScenarioState.particleListNextIdx ∧
    (update (fun _ => 0) (fun _ => 0) 0 0 pausedScenarioState).activeBuckets =
      pausedScenarioState.activeBuckets ∧
    (update (fun _ => 0) (fun _ => 0) 0 0 pausedScenarioState).material =
      pausedScenarioState.material ∧
    (update (fun _ => 0) (fun _ => 0) 0 0 pausedScenarioState).running =
      pausedScenarioState.running ∧
    (update (fun _ => 0) (fun _ => 0) 0 0 pausedScenarioState).width =
      pausedScenarioState.width ∧
    (update (fun _ => 0) (fun _ => 0) 0 0 pausedScenarioState).height =
      pausedScenarioState.height ∧
    (update (fun _ => 0) (fun _ => 0) 0 0 pausedScenarioState).mouseX =
      pausedScenarioState.mouseX ∧
    (update (fun _ => 0) (fun _ => 0) 0 0 pausedScenarioState).mouseY =
      pausedScenarioState.mouseY ∧
    (update (fun _ => 0) (fun _ => 0) 0 0 pausedScenarioState).mousePrevX =
      pausedScenarioState.mouseX ∧
    (update (fun _ => 0) (fun _ => 0) 0 0 pausedScenarioState).mousePrevY =
      pausedScenarioState.mouseY ∧
    (update (fun _ => 0) (fun _ => 0) 0 0 pausedScenarioState).screenX = 0 ∧
    (update (fun _ => 0) (fun _ => 0) 0 0 pausedScenarioState).screenY = 0 :=
  paused_step_amended (fun _ => 0) (fun _ => 0) 0 0 pausedScenarioState rfl

theorem emitParticles_drain (rnd : ℕ → ℚ) (s : SimState) :
    (emitParticles rnd s).drain = s.drain := rfl

theorem drainParticles_drain (s : SimState) :
    (drainParticles s).drain = s.drain := rfl

/-- C1: after a full `step()` executed while running, every particle's
velocity is exactly `(position - previousPosition) / dt`, where
`position` is the final position after relaxation and boundary
resolution and `previousPosition` the value saved before the
predicted-position advance; the reconciliation is the last stage of the
step, after all position-mutating stages. -/
theorem velocity_reconciliation (sq : ℚ → ℚ) (rnd : ℕ → ℚ) (winX winY : ℚ)
    (s : SimState) (hrun : s.running = true) :
    ∀ p ∈ (update sq rnd winX winY s).particles,
      p.velX = (p.posX - p.prevX) / s.material.dt ∧
      p.velY = (p.posY - p.prevY) / s.material.dt := by
  intro p hp
  by_cases he : s.emit = true <;> by_cases hd : s.drain = true <;>
    simp only [update, hrun, he, hd, emitParticles_drain, drainParticles_drain,
      emitParticles_material, drainParticles_material, Bool.true_eq_false,
      if_false, if_true, ite_true, ite_false, Bool.false_eq_true] at hp <;>
  · obtain ⟨q, hq, rfl⟩ := List.mem_map.mp hp
    constructor <;>
      · dsimp only
        rw [div_eq_mul_inv]
        ring

/-- A concrete running simulator state with a single particle. -/
def runningScenarioState : SimState :=
  { running := true, width := 100, height := 100,
    particles := [⟨50, 50, 50, 50, 0, 1⟩],
    screenX := 0, screenY := 0, screenMoveSmootherX := 0, screenMoveSmootherY := 0,
    mouseX := 50, mouseY := 50,
    attract := false, repel := false, emit := false, drain := false, drag := false,
    mousePrevX := 50, mousePrevY := 50,
    useSpatialHash := true, numHashBuckets := 5000,
    activeBuckets := [], particleListHeads := fun _ => -1,
    particleListNextIdx := fun _ => -1,
    material := Material.make "water" 0.5 0.5 0.5 40 }

/-- Witness for `velocity_reconciliation` at a concrete running state. -/
theorem velocity_reconciliation_witness :
    runningScenarioState.running = true ∧
    (∀ p ∈ (update (fun _ => 0) (fun _ => 0) 0 0 runningScenarioState).particles,
      p.velX = (p.posX - p.prevX) / runningScenarioState.material.dt ∧
      p.velY = (p.posY - p.prevY) / runningScenarioState.material.dt) :=
  ⟨rfl, velocity_reconciliation (fun _ => 0) (fun _ => 0) 0 0 runningScenarioState rfl⟩

/-- The state transformer that overwrites only `material.maxPressure`. -/
def setMaxPressure (x : ℚ) (s : SimState) : SimState :=
  { s with material := { s.material with maxPressure := x } }

/-- C10: the observable outcome of a step is independent of
`material.maxPressure`: two states identical except for `maxPressure`
produce identical particle arrays (positions, previous positions and
velocities) under `update()` — the clamp threshold actually applied in
the relaxation is the literal constant `1`, not the configurable field. -/
theorem max_pressure_independence (sq : ℚ → ℚ) (rnd : ℕ → ℚ) (winX winY x : ℚ)
    (s : SimState) :
    (update sq rnd winX winY (setMaxPressure x s)).particles =
      (update sq rnd winX winY s).particles := by
  rcases s with ⟨r, w, h, ps, sx, sy, smx, smy, mx, my, att, rep, em, dr, drg,
    mpx, mpy, ush, nb, ab, plh, pln, mat⟩
  rcases mat with ⟨nm, rd, st, ns, kr, pts, gx, gy, dtm, mp⟩
  by_cases hr : r = false
  · simp [update, setMaxPressure, hr]
  · by_cases he : em = true <;> by_cases hd : dr = true <;>
      simp only [update, setMaxPressure, hr, he, hd, emitParticles_drain,
        drainParticles_drain, if_false, if_true, ite_true, ite_false,
        Bool.false_eq_true] <;>
    rfl

theorem chainList_neg_one (next : ℕ → ℤ) : ∀ f, chainList next f (-1) = [] := by
  intro f
  cases f <;> simp [chainList]

/-- Updating the `next` pointer of the not-yet-chained index `k` does not
change any chain that starts at `-1` or below `k`, provided all existing
`next` pointers strictly decrease. -/
theorem chainList_update_ne (k : ℕ) (w : ℤ) (next : ℕ → ℤ)
    (hnext : ∀ j, j < k → next j = -1 ∨ (0 ≤ next j ∧ next j < (j : ℤ))) :
    ∀ (f : ℕ) (v : ℤ), (v = -1 ∨ (0 ≤ v ∧ v < (k : ℤ))) →
      chainList (fun j => if j = k then w else next j) f v = chainList next f v := by
  intro f
  induction f with
  | zero => intro v _; rfl
  | succ f ih =>
      intro v hv
      rcases hv with rfl | ⟨h0, hk⟩
      · simp [chainList]
      · have hvne : v ≠ -1 := by omega
        have hlt : v.toNat < k := by omega
        simp only [chainList, if_neg hvne]
        rw [if_neg (Nat.ne_of_lt hlt)]
        congr 1
        apply ih
        rcases hnext v.toNat hlt with h | ⟨ha, hb⟩
        · left; exact h
        · right
          refine ⟨ha, ?_⟩
          have : (v.toNat : ℤ) < (k : ℤ) := by exact_mod_cast hlt
          omega

/-- Unfolding a one-step chain walk that starts at the freshly inserted
index `k`, whose `next` pointer is `w`. -/
theorem chainList_insert_head (k : ℕ) (w : ℤ) (next : ℕ → ℤ) (f : ℕ) :
    chainList (fun j => if j = k then w else next j) (f + 1) (k : ℤ) =
      k :: chainList (fun j => if j = k then w else next j) f w := by
  have hk : ((k : ℤ)) ≠ -1 := by omega
  simp [chainList, hk, Int.toNat_natCast]

/-- The inductive invariant of the insertion loop of `populateHashGrid`
after inserting particles `0 … k-1`: bucket heads are `-1` or inserted
indices; `next` pointers strictly decrease; every bucket's chain is
exactly the reverse-insertion-order list of the inserted particles that
hash to it (for any sufficient fuel); and the active list is exactly the
duplicate-free set of non-empty buckets. -/
def HGInv (bkt : ℕ → ℕ) (numHashBuckets k : ℕ) (g : HGrid) : Prop :=
  (∀ b, b < numHashBuckets → g.heads b = -1 ∨ (0 ≤ g.heads b ∧ g.heads b < (k : ℤ))) ∧
  (∀ j, j < k → g.next j = -1 ∨ (0 ≤ g.next j ∧ g.next j < (j : ℤ))) ∧
  (∀ b, b < numHashBuckets → ∀ f, k ≤ f →
    chainList g.next f (g.heads b) =
      ((List.range k).filter (fun i => bkt i = b)).reverse) ∧
  g.active.Nodup ∧
  (∀ b, b ∈ g.active ↔ (b < numHashBuckets ∧ g.heads b ≠ -1))

theorem HGInv_base (bkt : ℕ → ℕ) (numHashBuckets : ℕ) (heads0 next0 : ℕ → ℤ)
    (h0 : ∀ b, b < numHashBuckets → heads0 b = -1) :
    HGInv bkt numHashBuckets 0 ⟨heads0, next0, []⟩ := by
  refine ⟨?_, ?_, ?_, ?_, ?_⟩
  · intro b hb; left; exact h0 b hb
  · intro j hj; omega
  · intro b hb f _
    show chainList next0 f (heads0 b) = _
    rw [h0 b hb, chainList_neg_one]
    simp
  · exact List.nodup_nil
  · intro b
    constructor
    · intro hmem; cases hmem
    · rintro ⟨hb, hne⟩
      exact absurd (h0 b hb) hne

theorem HGInv_insert (bkt : ℕ → ℕ) (numHashBuckets k : ℕ) (g : HGrid)
    (hbkt : ∀ i, bkt i < numHashBuckets) (hInv : HGInv bkt numHashBuckets k g) :
    HGInv bkt numHashBuckets (k + 1) (insertHG bkt g k) := by
  obtain ⟨h1, h2, h3, h4, h5⟩ := hInv
  have hknotneg : ((k : ℤ)) ≠ -1 := by omega
  refine ⟨?_, ?_, ?_, ?_, ?_⟩
  · intro b hb
    simp only [insertHG]
    by_cases hbb : b = bkt k
    · rw [if_pos hbb]
      right
      constructor <;> omega
    · rw [if_neg hbb]
      rcases h1 b hb with h | ⟨ha, hb'⟩
      · left; exact h
      · right; exact ⟨ha, by omega⟩
  · intro j hj
    simp only [insertHG]
    by_cases hjk : j = k
    · rw [if_pos hjk]
      rcases h1 (bkt k) (hbkt k) with h | ⟨ha, hb'⟩
      · left; exact h
      · right; subst hjk; exact ⟨ha, hb'⟩
    · rw [if_neg hjk]
      exact h2 j (by omega)
  · intro b hb f hf
    obtain ⟨f', rfl⟩ : ∃ f', f = f' + 1 := ⟨f - 1, by omega⟩
    simp only [insertHG]
    by_cases hbb : b = bkt k
    · subst hbb
      rw [if_pos rfl, chainList_insert_head]
      rw [chainList_update_ne k (g.heads (bkt k)) g.next h2 f' (g.heads (bkt k))
        (h1 (bkt k) (hbkt k))]
      rw [h3 (bkt k) (hbkt k) f' (by omega), List.range_succ, List.filter_append]
      simp
    · rw [if_neg hbb]
      rw [chainList_update_ne k (g.heads (bkt k)) g.next h2 (f' + 1) (g.heads b)
        (h1 b hb)]
      rw [h3 b hb (f' + 1) (by omega), List.range_succ, List.filter_append]
      have hne : bkt k ≠ b := fun h => hbb h.symm
      simp [hne]
  · simp only [insertHG]
    by_cases hh : g.heads (bkt k) = -1
    · rw [if_pos hh]
      have hnot : bkt k ∉ g.active := by
        intro hmem
        exact ((h5 (bkt k)).mp hmem).2 hh
      simp [List.nodup_append, h4, hnot]
    · rw [if_neg hh]
      exact h4
  · intro b
    simp only [insertHG]
    by_cases hh : g.heads (bkt k) = -1
    · rw [if_pos hh]
      by_cases hbb : b = bkt k
      · subst hbb
        simp only [List.mem_append, List.mem_singleton, if_pos rfl]
        constructor
        · intro _; exact ⟨hbkt k, hknotneg⟩
        · intro _
          simp
      · rw [if_neg hbb]
        simp only [List.mem_append, List.mem_singleton]
        constructor
        · rintro (hmem | rfl)
          · exact (h5 b).mp hmem
          · exact absurd rfl hbb
        · intro hr; left; exact (h5 b).mpr hr
    · rw [if_neg hh]
      by_cases hbb : b = bkt k
      · subst hbb
        rw [if_pos rfl]
        constructor
        · intro _; exact ⟨hbkt k, hknotneg⟩
        · intro _; exact (h5 (bkt k)).mpr ⟨hbkt k, hh⟩
      · rw [if_neg hbb]
        exact h5 b

theorem HGInv_build (bkt : ℕ → ℕ) (numHashBuckets : ℕ) (heads0 next0 : ℕ → ℤ)
    (hbkt : ∀ i, bkt i < numHashBuckets)
    (h0 : ∀ b, b < numHashBuckets → heads0 b = -1) :
    ∀ n, HGInv bkt numHashBuckets n (buildHG bkt n heads0 next0) := by
  intro n
  induction n with
  | zero => exact HGInv_base bkt numHashBuckets heads0 next0 h0
  | succ n ih =>
      have hstep : buildHG bkt (n + 1) heads0 next0 =
          insertHG bkt (buildHG bkt n heads0 next0) n := by
        simp [buildHG, List.range_succ]
      rw [hstep]
      exact HGInv_insert bkt numHashBuckets n _ hbkt ih

/-- C4: after `populateHashGrid()` on any simulator state (with a
positive bucket count), every particle index `i < n` appears in exactly
one bucket's linked list, each bucket's list holds it at most once
(the lists are duplicate-free), `activeBuckets` has no duplicates, and
`activeBuckets` contains exactly the buckets whose head is non-empty. -/
theorem grid_rebuild_partition (s : SimState) (hNB : 0 < s.numHashBuckets) :
    (∀ i, i < s.particles.length →
      ∃! b, b < s.numHashBuckets ∧
        i ∈ chainList (populateHashGrid s).particleListNextIdx s.particles.length
              ((populateHashGrid s).particleListHeads b)) ∧
    (∀ b, b < s.numHashBuckets →
      (chainList (populateHashGrid s).particleListNextIdx s.particles.length
          ((populateHashGrid s).particleListHeads b)).Nodup) ∧
    (populateHashGrid s).activeBuckets.Nodup ∧
    (∀ b, b < s.numHashBuckets →
      (b ∈ (populateHashGrid s).activeBuckets ↔
        (populateHashGrid s).particleListHeads b ≠ -1)) := by
  have hbkt : ∀ i, bucketOfParticle s i < s.numHashBuckets := fun i =>
    Nat.mod_lt _ hNB
  have h0 := clearGrid_heads_lt s.numHashBuckets s.activeBuckets s.particleListHeads
  obtain ⟨h1, h2, h3, h4, h5⟩ := HGInv_build (bucketOfParticle s) s.numHashBuckets
    (clearGrid s.numHashBuckets s.activeBuckets s.particleListHeads).1
    s.particleListNextIdx hbkt h0 s.particles.length
  have hH : (populateHashGrid s).particleListHeads =
      (buildHG (bucketOfParticle s) s.particles.length
        (clearGrid s.numHashBuckets s.activeBuckets s.particleListHeads).1
        s.particleListNextIdx).heads := rfl
  have hN : (populateHashGrid s).particleListNextIdx =
      (buildHG (bucketOfParticle s) s.particles.length
        (clearGrid s.numHashBuckets s.activeBuckets s.particleListHeads).1
        s.particleListNextIdx).next := rfl
  have hA : (populateHashGrid s).activeBuckets =
      (buildHG (bucketOfParticle s) s.particles.length
        (clearGrid s.numHashBuckets s.activeBuckets s.particleListHeads).1
        s.particleListNextIdx).active := rfl
  refine ⟨?_, ?_, ?_, ?_⟩
  · intro i hi
    refine ⟨bucketOfParticle s i, ⟨hbkt i, ?_⟩, ?_⟩
    · rw [hH, hN, h3 _ (hbkt i) s.particles.length le_rfl]
      simp [List.mem_filter, List.mem_range, hi]
    · rintro b' ⟨hb', hmem⟩
      rw [hH, hN, h3 b' hb' s.particles.length le_rfl] at hmem
      simp [List.mem_filter, List.mem_range] at hmem
      exact hmem.2.symm
  · intro b hb
    rw [hH, hN, h3 b hb s.particles.length le_rfl]
    exact List.nodup_reverse.mpr ((List.nodup_range _).filter _)
  · rw [hA]
    exact h4
  · intro b hb
    rw [hA, hH]
    constructor
    · intro hmem
      exact ((h5 b).mp hmem).2
    · intro hne
      exact (h5 b).mpr ⟨hb, hne⟩

/-- Witness for `grid_rebuild_partition` at a concrete one-particle
state with 5000 buckets. -/
theorem grid_rebuild_partition_witness :
    (∀ i, i < runningScenarioState.particles.length →
      ∃! b, b < runningScenarioState.numHashBuckets ∧
        i ∈ chainList (populateHashGrid runningScenarioState).particleListNextIdx
              runningScenarioState.particles.length
              ((populateHashGrid runningScenarioState).particleListHeads b)) ∧
    (∀ b, b < runningScenarioState.numHashBuckets →
      (chainList (populateHashGrid runningScenarioState).particleListNextIdx
          runningScenarioState.particles.length
          ((populateHashGrid runningScenarioState).particleListHeads b)).Nodup) ∧
    (populateHashGrid runningScenarioState).activeBuckets.Nodup ∧
    (∀ b, b < runningScenarioState.numHashBuckets →
      (b ∈ (populateHashGrid runningScenarioState).activeBuckets ↔
        (populateHashGrid runningScenarioState).particleListHeads b ≠ -1)) :=
  grid_rebuild_partition runningScenarioState (by norm_num [runningScenarioState])
